import Mathlib

/-!
Verification development for the `gklr` repository (files `gklr/optimizer.py`
and `gklr/gklr.py`).

The Python code is shallowly embedded: numpy float64 vectors become lists of
rationals (`Vec`), sample indices become naturals, fallible methods return
`Except String _`, and the numpy random permutation (external library code)
is an explicit function parameter `perm : ℕ → ℕ → List ℕ` mapping
`(seed, n_samples)` to the drawn permutation of `[0, n_samples)`.
-/

/-- Vectors of float64 entries are modelled as lists of rationals. -/
abbrev Vec := List ℚ

/-- `np.zeros((n,))`. -/
def zeroVec (n : ℕ) : Vec := List.replicate n 0

/-- Componentwise vector addition (`x + diff`). -/
def vadd (a b : Vec) : Vec := List.zipWith (· + ·) a b

/-- `diff = - learning_rate * g` (componentwise). -/
def smulNeg (lr : ℚ) (g : Vec) : Vec := g.map (fun t => -lr * t)

/-- `np.all(np.abs(diff) <= gtol)`. -/
def withinTol (gtol : ℚ) (d : Vec) : Bool := d.all (fun t => |t| ≤ gtol)

/-- Structural worker for `chunkList`: the first argument is fuel, always at
least the length of the list, so the fuel never runs out on the recursion
path actually taken. -/
def chunkListF : ℕ → ℕ → List ℕ → List (List ℕ)
  | _, _, [] => []
  | _, 0, _ :: _ => []
  | 0, _ + 1, _ :: _ => []
  | fuel + 1, b + 1, x :: xs =>
    ((x :: xs).take (b + 1)) :: chunkListF fuel (b + 1) (xs.drop b)

/-- Contiguous chunks of size `b` of a list, the last chunk possibly shorter:
the slices `indices[i : i + b]` for `i = 0, b, 2b, ...` in
`Optimizer._random_mini_batch` (`optimizer.py`, lines 202-205). A step of `0`
would make Python's `range` raise, so that case returns `[]`; the
optimizer's validation guarantees `b > 0`. -/
def chunkList (b : ℕ) (l : List ℕ) : List (List ℕ) := chunkListF l.length b l

/-- `Optimizer._random_mini_batch(n_samples, mini_batch_size, seed)`
(`optimizer.py`, lines 192-206): seed the RNG, draw a permutation of
`[0, n_samples)`, and cut it into contiguous chunks of `mini_batch_size`. -/
def random_mini_batch (perm : ℕ → ℕ → List ℕ) (n_samples mini_batch_size seed : ℕ) :
    List (List ℕ) :=
  chunkList mini_batch_size (perm seed n_samples)

/-- One epoch's inner loop over the mini-batches (`optimizer.py`, lines
162-172), threading the state `(x, g, diff)`: for each mini-batch,
`g := jac(x, minibatch)`, `diff := -learning_rate * g`, `x := x + diff`. -/
def epochStep (jac : Vec → List ℕ → Vec) (lr : ℚ) (mbs : List (List ℕ))
    (x g d : Vec) : Vec × Vec × Vec :=
  mbs.foldl
    (fun st mb =>
      let g' := jac st.1 mb
      let d' := smulNeg lr g'
      (vadd st.1 d', g', d'))
    (x, g, d)

/-- The fixed data of one SGD run (the arguments that stay constant over the
epoch loop of `_minimize_mini_batch_sgd`). `n` is `x0.shape[0]`. -/
structure SGDCtx where
  jac : Vec → List ℕ → Vec
  lr : ℚ
  gtol : ℚ
  N : ℕ
  b : ℕ
  perm : ℕ → ℕ → List ℕ
  n : ℕ

/-- The epoch body at 0-based epoch index `j`, started from state
`st = (x, g)` and base seed `seed`: the seed is first incremented
(`seed += 1`, line 157), so epoch `j` draws the mini-batches with seed
`seed + j + 1`; `diff` is re-initialised to zeros each epoch (line 159). -/
def epochOut (c : SGDCtx) (seed : ℕ) (st : Vec × Vec) (j : ℕ) : Vec × Vec × Vec :=
  epochStep c.jac c.lr (random_mini_batch c.perm c.N c.b (seed + j + 1)) st.1 st.2
    (zeroVec c.n)

/-- The `(x, g)` state reached after running `j` full epochs (no early break)
from state `st` with base seed `seed`. -/
def sgdIter (c : SGDCtx) (seed : ℕ) (st : Vec × Vec) : ℕ → Vec × Vec
  | 0 => st
  | j + 1 =>
    let t := epochOut c seed (sgdIter c seed st j) j
    (t.1, t.2.1)

/-- The `diff` left by the last mini-batch of epoch `j` (the vector the
convergence test `np.all(np.abs(diff) <= gtol)` inspects after epoch `j`). -/
def sgdDiff (c : SGDCtx) (seed : ℕ) (st : Vec × Vec) (j : ℕ) : Vec :=
  (epochOut c seed (sgdIter c seed st j) j).2.2

/-- The epoch loop of `_minimize_mini_batch_sgd` (`optimizer.py`, lines
152-182): `fuel` is the number of epochs still allowed, `i` the current
0-based epoch index, and the result is the final `(x, g)` together with
`some i₀` when the loop exited via the `break` at epoch `i₀` (`none` when
the `for` loop was exhausted). The `print_every` reporting branch (lines
163-165 and 174-177) only accumulates a loss for printing and never touches
`x`, `g`, `diff` or the termination logic, so it is not modelled. -/
def sgdLoop (c : SGDCtx) : ℕ → ℕ → ℕ → Vec → Vec → Vec × Vec × Option ℕ
  | 0, _, _, x, g => (x, g, none)
  | fuel + 1, i, seed, x, g =>
    let t := epochStep c.jac c.lr (random_mini_batch c.perm c.N c.b (seed + 1)) x g
      (zeroVec c.n)
    if withinTol c.gtol t.2.2 then (t.1, t.2.1, some i)
    else sgdLoop c fuel (i + 1) (seed + 1) t.1 t.2.1

/-- The same epoch loop, abstracted over the sequence of mini-batch
partitions: `mbsOf j` is the partition used at 0-based epoch `j`. Used to
state that the run consumes the randomness only through the per-epoch
partitions. -/
def sgdLoopP (jac : Vec → List ℕ → Vec) (lr gtol : ℚ) (n : ℕ)
    (mbsOf : ℕ → List (List ℕ)) : ℕ → ℕ → Vec → Vec → Vec × Vec × Option ℕ
  | 0, _, x, g => (x, g, none)
  | fuel + 1, i, x, g =>
    let t := epochStep jac lr (mbsOf 0) x g (zeroVec n)
    if withinTol gtol t.2.2 then (t.1, t.2.1, some i)
    else sgdLoopP jac lr gtol n (fun j => mbsOf (j + 1)) fuel (i + 1) t.1 t.2.1

/-- Index of the first `j < fuel` with `P j = true`. -/
def firstHit (P : ℕ → Bool) : ℕ → Option ℕ
  | 0 => none
  | fuel + 1 => if P 0 then some 0 else (firstHit (fun j => P (j + 1)) fuel).map (· + 1)

/-- The `scipy.optimize.OptimizeResult` record assembled at
`optimizer.py`, lines 189-190. `fval` is the field `fun` (a Lean keyword),
`jacv` the field `jac`. -/
structure OptResult where
  x : Vec
  fval : ℚ
  jacv : Vec
  nit : ℕ
  nfev : ℕ
  success : Bool
  message : String

/-- `Optimizer._minimize_mini_batch_sgd` (`optimizer.py`, lines 90-190).
`fun?`/`jac?` are `none` when the Python argument is not callable
(resp. `None`); `mini_batch_size? = none` is Python's `None` default
(full-batch). Raised `ValueError`s become `Except.error` with the source
message. The objective takes an optional mini-batch (`fun(x)` at line 189
passes none). -/
def minimize_mini_batch_sgd (fun? : Option (Vec → Option (List ℕ) → ℚ))
    (x0 : Vec) (jac? : Option (Vec → List ℕ → Vec)) (learning_rate : ℚ)
    (mini_batch_size? : Option ℤ) (n_samples : ℤ) (gtol : ℚ) (maxiter : ℤ)
    (seed : ℕ) (perm : ℕ → ℕ → List ℕ) : Except String OptResult :=
  match fun? with
  | none => .error "The objective function must be callable."
  | some f =>
    if learning_rate ≤ 0 then .error "The learning rate must be greater than zero."
    else
      let mini_batch_size := mini_batch_size?.getD n_samples
      if mini_batch_size ≤ 0 then .error "The mini-batch size must be greater than zero."
      else if n_samples ≤ 0 then
        .error "The number of samples in the dataset must be greater than zero and corresponds with number of rows in the dataset."
      else if mini_batch_size > n_samples then
        .error "The mini-batch size must be less than or equal to the number of samples in the dataset."
      else if gtol ≤ 0 then .error "The tolerance must be greater than zero."
      else if maxiter ≤ 0 then
        .error "The maximum number of iterations (epochs) must be greater than zero."
      else
        match jac? with
        | none => .error "The gradient of the objective function must be provided."
        | some jac =>
          let num_epochs := maxiter.toNat
          let n := x0.length
          let c : SGDCtx :=
            { jac := jac, lr := learning_rate, gtol := gtol, N := n_samples.toNat,
              b := mini_batch_size.toNat, perm := perm, n := n }
          let out := sgdLoop c num_epochs 0 seed x0 (zeroVec n)
          -- Python's `i` after the loop: the break index plus one, or
          -- `num_epochs - 1` plus one on exhaustion (lines 184-187).
          let iFin := match out.2.2 with
            | some i0 => i0 + 1
            | none => num_epochs
          let success := decide (iFin < num_epochs)
          let message :=
            if iFin ≥ num_epochs then "STOP: TOTAL NO. of ITERATIONS REACHED LIMIT"
            else "Optimization terminated successfully. Gradient tolerance reached."
          .ok { x := out.1, fval := f out.1 none, jacv := out.2.1, nit := iFin,
                nfev := iFin, success := success, message := message }

/-- Modelled from the spec: the constant `CUSTOM_OPTIMIZATION_METHODS` is
imported from `gklr/kernel_utils.py`, which is not part of the two sources;
the spec states that "Only a mini-batch gradient-descent method is natively
implemented; requesting any other method name is a configuration error
listing the supported set", so the supported set is the single method
"SGD". -/
def CUSTOM_OPTIMIZATION_METHODS : List String := ["SGD"]

/-- Rendering of a Python list of strings inside an f-string,
e.g. `['SGD']`. -/
def pyStrList (l : List String) : String :=
  "[" ++ String.intercalate ", " (l.map (fun s => "'" ++ s ++ "'")) ++ "]"

/-- The solver options passed through `minimize`'s `options` dict to the
keyword arguments of `_minimize_mini_batch_sgd`; a `none` field is an absent
key, replaced by the keyword's default at the call. -/
structure SGDOptions where
  learning_rate : Option ℚ := none
  mini_batch_size : Option ℤ := none
  n_samples : Option ℤ := none
  gtol : Option ℚ := none
  maxiter : Option ℤ := none
  seed : Option ℕ := none

/-- `Optimizer.minimize` (`optimizer.py`, lines 20-88): default the method to
"SGD" when `None`, default the options, seed `options['gtol']` from `tol`
for the SGD method, then dispatch. A non-"SGD" method raises a `ValueError`
naming the valid methods. The `jac` argument is modelled in its callable /
`None` forms (`jac=True`, which wraps `fun` in `MemoizeJac`, is modelled by
the `MemoizeJac` development below; the dispatch on `method` is independent
of it). -/
def Optimizer.minimize (fun? : Option (Vec → Option (List ℕ) → ℚ)) (x0 : Vec)
    (method? : Option String) (jac? : Option (Vec → List ℕ → Vec))
    (tol? : Option ℚ) (options? : Option SGDOptions)
    (perm : ℕ → ℕ → List ℕ) : Except String OptResult :=
  let method := method?.getD "SGD"
  let options := options?.getD {}
  let options :=
    match tol? with
    | some t =>
      if method = "SGD" then { options with gtol := some (options.gtol.getD t) }
      else options
    | none => options
  if method = "SGD" then
    minimize_mini_batch_sgd fun? x0 jac? (options.learning_rate.getD (1 / 1000))
      options.mini_batch_size (options.n_samples.getD 0)
      (options.gtol.getD (1 / 1000000)) (options.maxiter.getD 1000)
      (options.seed.getD 0) perm
  else
    .error ("'method' = " ++ method ++ " is not a valid optimization method.\nValid methods are: "
      ++ pyStrList CUSTOM_OPTIMIZATION_METHODS ++ ".")

/-- The mutable attributes of a `MemoizeJac` instance (`optimizer.py`, lines
213-218): the cached gradient, cached value, cached point and cached
mini-batch, all initially `None`. The wrapped function `fun` is passed
separately since it never changes. -/
structure MemoizeJacState (X B V G : Type) where
  jacv : Option G
  value : Option V
  x : Option X
  minibatch : Option B

/-- The state after `MemoizeJac.__init__` (`optimizer.py`, lines 213-218). -/
def MemoizeJac.init (X B V G : Type) : MemoizeJacState X B V G :=
  { jacv := none, value := none, x := none, minibatch := none }

/-- `np.all(x == self.x)` where `self.x` may be `None`: comparing an array
against `None` yields elementwise `False`, so the test holds exactly when a
point is cached and equals `x`. -/
def npAllEqCached {X : Type} [DecidableEq X] (x : X) (cached : Option X) : Bool :=
  cached = some x

/-- `np.all(minibatch == self.minibatch)` where either side may be `None`:
`None == None` holds, an array never equals `None`, arrays compare
elementwise. -/
def npAllEqOpt {B : Type} [DecidableEq B] (a b : Option B) : Bool := a = b

/-- `MemoizeJac._compute_if_needed(x, minibatch)` (`optimizer.py`, lines
220-237), returning the updated state together with the number of calls made
to the wrapped function `f` during this invocation. -/
def MemoizeJac.computeIfNeeded {X B V G : Type} [DecidableEq X] [DecidableEq B]
    (f : X → Option B → V × G) (s : MemoizeJacState X B V G) (x : X)
    (mb : Option B) : MemoizeJacState X B V G × ℕ :=
  let s1c :=
    if (! npAllEqCached x s.x) || s.value.isNone || s.jacv.isNone then
      let fg := f x mb
      (({ x := some x, minibatch := mb, jacv := some fg.2, value := some fg.1 } :
        MemoizeJacState X B V G), 1)
    else (s, 0)
  let s1 := s1c.1
  if ! npAllEqOpt mb s1.minibatch then
    let fg := f x mb
    ({ s1 with minibatch := mb, jacv := some fg.2, value := some fg.1 }, s1c.2 + 1)
  else s1c

/-- `MemoizeJac.__call__(x, minibatch)` (`optimizer.py`, lines 239-242):
compute if needed, then return `self._value` (with the updated state and the
number of underlying calls). -/
def MemoizeJac.call {X B V G : Type} [DecidableEq X] [DecidableEq B]
    (f : X → Option B → V × G) (s : MemoizeJacState X B V G) (x : X)
    (mb : Option B) : Option V × MemoizeJacState X B V G × ℕ :=
  let sc := MemoizeJac.computeIfNeeded f s x mb
  (sc.1.value, sc.1, sc.2)

/-- `MemoizeJac.derivative(x, minibatch)` (`optimizer.py`, lines 244-246):
compute if needed, then return `self.jac`. -/
def MemoizeJac.derivative {X B V G : Type} [DecidableEq X] [DecidableEq B]
    (f : X → Option B → V × G) (s : MemoizeJacState X B V G) (x : X)
    (mb : Option B) : Option G × MemoizeJacState X B V G × ℕ :=
  let sc := MemoizeJac.computeIfNeeded f s x mb
  (sc.1.jacv, sc.1, sc.2)

/-- Cache consistency: either nothing has been cached yet (all fields as
initialised), or the cached value and gradient are exactly the two
components of `f` at the cached point and mini-batch. -/
def MemoizeJacInv {X B V G : Type} (f : X → Option B → V × G)
    (s : MemoizeJacState X B V G) : Prop :=
  (s.x = none ∧ s.value = none ∧ s.jacv = none) ∨
  (∃ x0, s.x = some x0 ∧ s.value = some (f x0 s.minibatch).1 ∧
    s.jacv = some (f x0 s.minibatch).2)

/-- A Python value inside a nest list: an `int` or anything else
(`isinstance(num, int)` test at `gklr.py`, line 82). -/
inductive PyNestEntry : Type
  | int (n : ℤ)
  | nonInt
deriving DecidableEq

/-- A Python value inside the `nests` list: a list of entries or a non-list
(`isinstance(nest, list)` test at `gklr.py`, line 74). -/
inductive PyNestVal : Type
  | list (items : List PyNestEntry)
  | nonList
deriving DecidableEq

/-- The Python value under the `"nests"` key of `model_params`: a list of
nests or a non-list (`isinstance(nests, list)` test at `gklr.py`,
line 62). -/
inductive PyNestsVal : Type
  | list (nests : List PyNestVal)
  | nonList
deriving DecidableEq

/-- `isinstance(num, int)`. -/
def isPyInt : PyNestEntry → Bool
  | .int _ => true
  | .nonInt => false

/-- One iteration of the nest-checking loop of `KernelModel.__init__`
(`gklr.py`, lines 72-84): when `done` is not yet set, it becomes set by a
nest that is not a list, an empty nest, or a nest with a non-integer
entry. -/
def initNestsStep (done : Bool) (nest : PyNestVal) : Bool :=
  if done then done
  else
    match nest with
    | .nonList => true
    | .list items =>
      if items.length = 0 then true
      else if ! items.all isPyInt then true
      else done

/-- The `done` flag after the nest-checking loop of `KernelModel.__init__`
(`gklr.py`, lines 71-84). -/
def initNestsDone (ns : List PyNestVal) : Bool :=
  ns.foldl initNestsStep false

/-- The `nests` handling of `KernelModel.__init__` (`gklr.py`, lines 52-90):
given the value under the `"nests"` key of `model_params` (`none` when
`model_params` is `None` or has no `"nests"` key), return the resulting
`(self.nests, self.nested)`. Every malformed case only logs a warning
("The nests will be ignored.") and leaves `self.nests = None`,
`self.nested = False`; no exception is raised on this path. -/
def kernelModel_init_nests : Option PyNestsVal → Option (List PyNestVal) × Bool
  | none => (none, false)
  | some .nonList => (none, false)
  | some (.list ns) =>
    if ns.length = 0 then (none, false)
    else if ns.length = 1 then (none, false)
    else if ! initNestsDone ns then (some ns, true)
    else (none, false)

/-- A nest value accepted by the constructor's checking loop: a nonempty
list of integers. -/
def goodNest : PyNestVal → Bool
  | .nonList => false
  | .list items => decide (items.length ≠ 0) && items.all isPyInt

/-- The structured content of the `ValueError`s raised by
`KernelModel.validate_nests` (`gklr.py`, lines 226-237), carrying the
reported alternatives. -/
inductive NestsValidationError : Type
  | missing (alts : List ℤ)
  | extra (alts : List ℤ)
  | duplicates (alts : List ℤ)
deriving DecidableEq

/-- `KernelModel.validate_nests(nests, alternatives)` (`gklr.py`, lines
212-237): count occurrences over the flattened nests, compute the
duplicated, missing and extra alternatives, and raise (in that order of
checks: missing, extra, duplicates) when any is nonempty. -/
def validate_nests (nests : List (List ℤ)) (alternatives : List ℤ) :
    Except NestsValidationError Unit :=
  let flattened := nests.flatten
  let flattenedSet := flattened.dedup
  let alternativesSet := alternatives.dedup
  let duplicates := flattenedSet.filter (fun a => 1 < flattened.count a)
  let missing := alternativesSet.filter (fun a => ! flattened.contains a)
  let extra := flattenedSet.filter (fun a => ! alternatives.contains a)
  if missing ≠ [] then .error (.missing missing)
  else if extra ≠ [] then .error (.extra extra)
  else if duplicates ≠ [] then .error (.duplicates duplicates)
  else .ok ()

/-- The attributes of a `KernelModel` relevant to the claims about
`get_kernel` (`gklr.py`, lines 37-50): the stored train and test kernel
matrices, the nests and the nested flag. The kernel-matrix type is a
parameter. -/
structure KernelModelState (KM : Type) where
  K : Option KM
  K_test : Option KM
  nests : Option (List PyNestVal)
  nested : Bool

/-- The error message raised by `get_kernel` for an unrecognised dataset
name (`gklr.py`, line 182). -/
def gklrDatasetErrMsg : String :=
  "Dataset must be a value in: ['train', 'test', 'both']"

/-- `KernelModel.get_kernel(dataset)` (`gklr.py`, lines 167-184): return the
stored train or test matrix, raise a `ValueError` otherwise; the state is
returned unchanged (the method never assigns). -/
def get_kernel {KM : Type} (st : KernelModelState KM) (dataset : String) :
    Except String (Option KM) × KernelModelState KM :=
  if dataset = "train" then (.ok st.K, st)
  else if dataset = "test" then (.ok st.K_test, st)
  else (.error gklrDatasetErrMsg, st)

/-- `results[key]` on the estimation-results dict, modelled as an
association list over opaque values: `none` is a Python `KeyError`. -/
def resultsGet {V : Type} (r : List (String × V)) (k : String) : Option V :=
  (r.find? (fun p => p.1 = k)).map (fun p => p.2)

/-- The final log-likelihood computation of `fit` in the nested branch
(`gklr.py`, line 429): `calcs.log_likelihood(self.results["alpha"],
lambd=self.results["lambd"])`, made explicit about the two key lookups. -/
def fitNestedFinalLogLikelihood {V L : Type} (log_likelihood : V → V → L)
    (results : List (String × V)) : Option L :=
  match resultsGet results "alpha", resultsGet results "lambd" with
  | some a, some l => some (log_likelihood a l)
  | _, _ => none

/-- The probability computation of `predict_proba` in the nested branch
(`gklr.py`, line 528): `calcs.calc_probabilities(self.results["alpha"],
lambd=self.results["lambda"])`, made explicit about the two key lookups. -/
def predictProbaNested {V P : Type} (calc_probabilities : V → V → P)
    (results : List (String × V)) : Option P :=
  match resultsGet results "alpha", resultsGet results "lambda" with
  | some a, some l => some (calc_probabilities a l)
  | _, _ => none

/-- The `results` keys read by `fit` after estimation in the nested branch
(`gklr.py`, line 429). -/
def fitNestedResultReads : List String := ["alpha", "lambd"]

/-- The `results` keys written by `fit`'s post-estimation block
(`gklr.py`, lines 436-443). -/
def fitResultWrites : List String :=
  ["initial_log_likelihood", "final_log_likelihood", "elapsed_time",
   "mcfadden_r2", "pmle", "pmle_lamda", "method", "history"]

/-- The `results` keys read by `predict_proba` in the nested branch
(`gklr.py`, line 528). -/
def predictProbaNestedReads : List String := ["alpha", "lambda"]

/-! ### Properties of the mini-batch chunking -/

theorem chunkListF_flatten :
    ∀ (fuel b : ℕ) (l : List ℕ), l.length ≤ fuel → b ≠ 0 →
      (chunkListF fuel b l).flatten = l := by
  intro fuel
  induction fuel with
  | zero =>
    intro b l hl _
    have : l = [] := List.eq_nil_of_length_eq_zero (Nat.le_zero.mp hl)
    subst this
    cases b <;> rfl
  | succ fuel ih =>
    intro b l hl hb
    cases l with
    | nil => cases b <;> rfl
    | cons x xs =>
      cases b with
      | zero => exact absurd rfl hb
      | succ b =>
        show (x :: xs).take (b + 1) ++ (chunkListF fuel (b + 1) (xs.drop b)).flatten = x :: xs
        rw [ih (b + 1) (xs.drop b) ?_ (Nat.succ_ne_zero b), ← List.drop_succ_cons,
          List.take_append_drop]
        simp only [List.length_drop]
        simp only [List.length_cons] at hl
        omega

theorem chunkList_flatten (b : ℕ) (l : List ℕ) (hb : b ≠ 0) :
    (chunkList b l).flatten = l :=
  chunkListF_flatten l.length b l le_rfl hb

theorem chunkListF_mem_length :
    ∀ (fuel b : ℕ) (l : List ℕ), ∀ c ∈ chunkListF fuel b l, 0 < c.length ∧ c.length ≤ b := by
  intro fuel
  induction fuel with
  | zero =>
    intro b l c hc
    cases l with
    | nil => simp [chunkListF] at hc
    | cons x xs => cases b <;> simp [chunkListF] at hc
  | succ fuel ih =>
    intro b l c hc
    cases l with
    | nil => simp [chunkListF] at hc
    | cons x xs =>
      cases b with
      | zero => simp [chunkListF] at hc
      | succ b =>
        rcases List.mem_cons.mp hc with h | h
        · subst h
          constructor
          · simp [List.length_take]
          · simp
        · exact ih (b + 1) (xs.drop b) c h

theorem chunkList_mem_length (b : ℕ) (l : List ℕ) :
    ∀ c ∈ chunkList b l, 0 < c.length ∧ c.length ≤ b :=
  chunkListF_mem_length l.length b l

theorem chunkListF_ne_nil (fuel b : ℕ) (x : ℕ) (xs : List ℕ) (hb : b ≠ 0)
    (_hl : (x :: xs).length ≤ fuel + 1) : chunkListF (fuel + 1) b (x :: xs) ≠ [] := by
  cases b with
  | zero => exact absurd rfl hb
  | succ b => simp [chunkListF]

theorem chunkListF_dropLast_length :
    ∀ (fuel b : ℕ) (l : List ℕ), l.length ≤ fuel →
      ∀ c ∈ (chunkListF fuel b l).dropLast, c.length = b := by
  intro fuel
  induction fuel with
  | zero =>
    intro b l hl c hc
    have : l = [] := List.eq_nil_of_length_eq_zero (Nat.le_zero.mp hl)
    subst this
    simp [chunkListF] at hc
  | succ fuel ih =>
    intro b l hl c hc
    cases l with
    | nil => simp [chunkListF] at hc
    | cons x xs =>
      cases b with
      | zero => simp [chunkListF] at hc
      | succ b =>
        have hstep : chunkListF (fuel + 1) (b + 1) (x :: xs) =
            ((x :: xs).take (b + 1)) :: chunkListF fuel (b + 1) (xs.drop b) := rfl
        rw [hstep] at hc
        have hlen : (xs.drop b).length ≤ fuel := by
          simp only [List.length_drop]
          simp only [List.length_cons] at hl
          omega
        rcases hrest : chunkListF fuel (b + 1) (xs.drop b) with _ | ⟨r, rs⟩
        · rw [hrest] at hc
          simp at hc
        · rw [hrest] at hc
          rw [List.dropLast_cons₂] at hc
          rcases List.mem_cons.mp hc with h | h
          · subst h
            have hne : xs.drop b ≠ [] := by
              intro hnil
              rw [hnil] at hrest
              cases fuel <;> simp [chunkListF] at hrest
            have hxs : b + 1 ≤ xs.length := by
              by_contra hlt
              exact hne (List.drop_eq_nil_of_le (by omega))
            simp [List.length_take]
            omega
          · rw [← hrest] at h
            exact ih (b + 1) (xs.drop b) hlen c h

theorem chunkList_dropLast_length (b : ℕ) (l : List ℕ) :
    ∀ c ∈ (chunkList b l).dropLast, c.length = b :=
  chunkListF_dropLast_length l.length b l le_rfl

/-! ### Characterisation of the epoch loop -/

theorem epochOut_shift (c : SGDCtx) (seed : ℕ) (st : Vec × Vec) (j : ℕ) :
    epochOut c (seed + 1) st j = epochOut c seed st (j + 1) := by
  have h : seed + 1 + j + 1 = seed + (j + 1) + 1 := by omega
  rw [epochOut, epochOut, h]

theorem sgdIter_shift (c : SGDCtx) (seed : ℕ) (st : Vec × Vec) (j : ℕ) :
    sgdIter c (seed + 1) ((epochOut c seed st 0).1, (epochOut c seed st 0).2.1) j =
      sgdIter c seed st (j + 1) := by
  induction j with
  | zero => rfl
  | succ j ih =>
    show (let t := epochOut c (seed + 1) _ j; (t.1, t.2.1)) = _
    rw [ih, epochOut_shift]
    rfl

theorem sgdDiff_shift (c : SGDCtx) (seed : ℕ) (st : Vec × Vec) (j : ℕ) :
    sgdDiff c (seed + 1) ((epochOut c seed st 0).1, (epochOut c seed st 0).2.1) j =
      sgdDiff c seed st (j + 1) := by
  rw [sgdDiff, sgdDiff, sgdIter_shift, epochOut_shift]

/-- The epoch loop in closed form: it breaks at the first epoch `j` whose
final mini-batch step `sgdDiff` lies within tolerance, leaving the state
`sgdIter (j + 1)`; when no epoch within `fuel` converges it leaves
`sgdIter fuel` and no break index. -/
theorem sgdLoop_char (c : SGDCtx) (fuel : ℕ) :
    ∀ (i seed : ℕ) (x g : Vec),
      sgdLoop c fuel i seed x g =
        match firstHit (fun j => withinTol c.gtol (sgdDiff c seed (x, g) j)) fuel with
        | some j =>
          ((sgdIter c seed (x, g) (j + 1)).1, (sgdIter c seed (x, g) (j + 1)).2,
            some (i + j))
        | none => ((sgdIter c seed (x, g) fuel).1, (sgdIter c seed (x, g) fuel).2, none) := by
  induction fuel with
  | zero => intro i seed x g; rfl
  | succ fuel ih =>
    intro i seed x g
    have ht : epochStep c.jac c.lr (random_mini_batch c.perm c.N c.b (seed + 1)) x g
        (zeroVec c.n) = epochOut c seed (x, g) 0 := rfl
    have hd0 : sgdDiff c seed (x, g) 0 = (epochOut c seed (x, g) 0).2.2 := rfl
    rw [sgdLoop, ht]
    by_cases h0 : withinTol c.gtol (epochOut c seed (x, g) 0).2.2
    · rw [if_pos h0]
      have hP0 : (fun j => withinTol c.gtol (sgdDiff c seed (x, g) j)) 0 = true := by
        show withinTol c.gtol (sgdDiff c seed (x, g) 0) = true
        rw [hd0]; exact h0
      rw [firstHit, if_pos hP0]
      rfl
    · rw [if_neg h0]
      rw [ih (i + 1) (seed + 1) (epochOut c seed (x, g) 0).1 (epochOut c seed (x, g) 0).2.1]
      have hP0 : (fun j => withinTol c.gtol (sgdDiff c seed (x, g) j)) 0 ≠ true := by
        show ¬ withinTol c.gtol (sgdDiff c seed (x, g) 0) = true
        rw [hd0]; exact h0
      have hpred : (fun j => withinTol c.gtol
          (sgdDiff c (seed + 1) ((epochOut c seed (x, g) 0).1,
            (epochOut c seed (x, g) 0).2.1) j)) =
          (fun j => withinTol c.gtol (sgdDiff c seed (x, g) (j + 1))) := by
        funext j
        rw [sgdDiff_shift]
      rw [hpred, firstHit, if_neg hP0]
      cases hfh : firstHit (fun j => withinTol c.gtol (sgdDiff c seed (x, g) (j + 1))) fuel with
      | none =>
        rw [sgdIter_shift c seed (x, g) fuel]
        rfl
      | some j =>
        show ((sgdIter c (seed + 1) ((epochOut c seed (x, g) 0).1,
            (epochOut c seed (x, g) 0).2.1) (j + 1)).1,
          (sgdIter c (seed + 1) ((epochOut c seed (x, g) 0).1,
            (epochOut c seed (x, g) 0).2.1) (j + 1)).2, some (i + 1 + j)) =
          ((sgdIter c seed (x, g) (j + 1 + 1)).1, (sgdIter c seed (x, g) (j + 1 + 1)).2,
            some (i + (j + 1)))
        rw [sgdIter_shift c seed (x, g) (j + 1)]
        have h2 : i + 1 + j = i + (j + 1) := by omega
        rw [h2]

/-- The epoch loop consumes `(N, b, perm, seed)` only through the sequence of
per-epoch partitions `j ↦ random_mini_batch perm N b (seed + j + 1)`. -/
theorem sgdLoop_factors (c : SGDCtx) (fuel : ℕ) :
    ∀ (i seed : ℕ) (x g : Vec),
      sgdLoop c fuel i seed x g =
        sgdLoopP c.jac c.lr c.gtol c.n
          (fun j => random_mini_batch c.perm c.N c.b (seed + j + 1)) fuel i x g := by
  induction fuel with
  | zero => intro i seed x g; rfl
  | succ fuel ih =>
    intro i seed x g
    rw [sgdLoop, sgdLoopP]
    by_cases h0 : withinTol c.gtol
        (epochStep c.jac c.lr (random_mini_batch c.perm c.N c.b (seed + 0 + 1)) x g
          (zeroVec c.n)).2.2
    · rw [if_pos h0, if_pos h0]
    · rw [if_neg h0, if_neg h0, ih]
      have hpred : (fun j => random_mini_batch c.perm c.N c.b (seed + 1 + j + 1)) =
          (fun j => random_mini_batch c.perm c.N c.b (seed + (j + 1) + 1)) := by
        funext j
        have : seed + 1 + j + 1 = seed + (j + 1) + 1 := by omega
        rw [this]
      rw [hpred]

/-! ### MemoizeJac cache behaviour -/

theorem computeIfNeeded_spec {X B V G : Type} [DecidableEq X] [DecidableEq B]
    (f : X → Option B → V × G) (s : MemoizeJacState X B V G) (x : X) (mb : Option B)
    (hInv : MemoizeJacInv f s) :
    (MemoizeJac.computeIfNeeded f s x mb).1.x = some x ∧
    (MemoizeJac.computeIfNeeded f s x mb).1.minibatch = mb ∧
    (MemoizeJac.computeIfNeeded f s x mb).1.value = some (f x mb).1 ∧
    (MemoizeJac.computeIfNeeded f s x mb).1.jacv = some (f x mb).2 ∧
    MemoizeJacInv f (MemoizeJac.computeIfNeeded f s x mb).1 ∧
    (MemoizeJac.computeIfNeeded f s x mb).2 ≤ 1 ∧
    ((MemoizeJac.computeIfNeeded f s x mb).2 = 0 ↔
      s.x = some x ∧ s.minibatch = mb ∧ s.value.isSome = true) ∧
    ((MemoizeJac.computeIfNeeded f s x mb).2 = 0 →
      (MemoizeJac.computeIfNeeded f s x mb).1 = s) := by
  by_cases h1 : ((! npAllEqCached x s.x) || s.value.isNone || s.jacv.isNone) = true
  · have hred : MemoizeJac.computeIfNeeded f s x mb =
        ({ x := some x, minibatch := mb, jacv := some (f x mb).2,
           value := some (f x mb).1 }, 1) := by
      unfold MemoizeJac.computeIfNeeded
      rw [if_pos h1]
      have : (! npAllEqOpt mb mb) = false := by simp [npAllEqOpt]
      simp [this]
    rw [hred]
    refine ⟨rfl, rfl, rfl, rfl, ?_, by omega, ?_, by simp⟩
    · exact Or.inr ⟨x, rfl, rfl, rfl⟩
    · constructor
      · intro h; exact absurd h (by simp)
      · rintro ⟨hx, hmb, hv⟩
        exfalso
        simp only [npAllEqCached, hx, Bool.not_eq_true, Option.isNone_iff_eq_none,
          decide_eq_true_eq] at h1
        rcases Bool.or_eq_true_iff.mp h1 with h | h
        · rcases Bool.or_eq_true_iff.mp h with h | h
          · simp at h
          · rw [Option.isNone_iff_eq_none] at h
            rw [h] at hv
            simp at hv
        · rw [Option.isNone_iff_eq_none] at h
          rcases hInv with ⟨hxn, _, _⟩ | ⟨x0, _, _, hjv⟩
          · rw [hxn] at hx; exact Option.noConfusion hx
          · rw [hjv] at h; exact Option.noConfusion h
  · have hx : s.x = some x := by
      simp only [Bool.or_eq_true, Bool.not_eq_true, npAllEqCached] at h1
      push_neg at h1
      have := h1.1.1
      simpa using this
    have hv : s.value.isSome = true := by
      simp only [Bool.or_eq_true] at h1
      push_neg at h1
      have := h1.1.2
      simp [Option.isNone_iff_eq_none] at this
      simp [Option.isSome_iff_ne_none]
      exact this
    rcases hInv with ⟨hxn, _, _⟩ | ⟨x0, hx0, hval, hjac⟩
    · rw [hxn] at hx; exact Option.noConfusion hx
    · have hx0x : x0 = x := Option.some.inj (hx0.symm.trans hx)
      rw [hx0x] at hx0 hval hjac
      by_cases h2 : mb = s.minibatch
      · have hred : MemoizeJac.computeIfNeeded f s x mb = (s, 0) := by
          unfold MemoizeJac.computeIfNeeded
          rw [if_neg h1]
          have : (! npAllEqOpt mb s.minibatch) = false := by simp [npAllEqOpt, h2]
          simp [this]
        rw [hred]
        refine ⟨hx0, h2.symm, ?_, ?_, Or.inr ⟨x, hx0, hval, hjac⟩, by omega,
          ⟨fun _ => ⟨hx0, h2.symm, hv⟩, fun _ => rfl⟩, fun _ => rfl⟩
        · rw [hval, h2]
        · rw [hjac, h2]
      · have hred : MemoizeJac.computeIfNeeded f s x mb =
            ({ jacv := some (f x mb).2, value := some (f x mb).1, x := s.x,
               minibatch := mb }, 1) := by
          unfold MemoizeJac.computeIfNeeded
          rw [if_neg h1]
          have : (! npAllEqOpt mb s.minibatch) = true := by simp [npAllEqOpt, h2]
          simp [this]
        rw [hred]
        refine ⟨hx0, rfl, rfl, rfl, Or.inr ⟨x, hx0, rfl, rfl⟩, by omega, ?_, by simp⟩
        constructor
        · intro h; exact absurd h (by simp)
        · rintro ⟨_, hmb, _⟩
          exact absurd hmb.symm h2

/-! ### Constructor nest screening -/

theorem initNestsStep_eq (d : Bool) (nest : PyNestVal) :
    initNestsStep d nest = (d || ! goodNest nest) := by
  cases d
  · cases nest with
    | nonList => simp [initNestsStep, goodNest]
    | list items =>
      by_cases h0 : items.length = 0
      · simp [initNestsStep, goodNest, h0]
      · by_cases hall : items.all isPyInt
        · simp [initNestsStep, goodNest, h0, hall]
        · simp [initNestsStep, goodNest, h0, hall]
  · simp [initNestsStep]

theorem initNestsDone_eq_any (ns : List PyNestVal) :
    initNestsDone ns = ns.any (fun nest => ! goodNest nest) := by
  have hgen : ∀ (l : List PyNestVal) (d : Bool),
      l.foldl initNestsStep d = (d || l.any (fun nest => ! goodNest nest)) := by
    intro l
    induction l with
    | nil => intro d; simp
    | cons nest l ih =>
      intro d
      rw [List.foldl_cons, initNestsStep_eq, ih, List.any_cons]
      cases d <;> simp [Bool.or_assoc]
  rw [initNestsDone, hgen]
  simp

/-! ### Claim theorems -/

/-- C7: invoking the SGD minimisation with a non-callable objective, a
non-positive learning rate, a non-positive or oversized (effective)
mini-batch size, a non-positive `n_samples`, a non-positive `gtol` or
`maxiter`, or a missing gradient function raises a `ValueError`
synchronously; no epoch runs: the result is the same error for every
initial parameter vector, seed, permutation source, and every choice of the
objective/gradient callables (with the same callability), so the parameter
vector is never updated, no mini-batch is drawn, and no objective or
gradient evaluation occurs. -/
theorem sgd_invalid_inputs_rejected
    (lr gtol : ℚ) (mbs? : Option ℤ) (N maxiter : ℤ)
    (f1 f2 : Option (Vec → Option (List ℕ) → ℚ)) (j1 j2 : Option (Vec → List ℕ → Vec))
    (x1 x2 : Vec) (s1 s2 : ℕ) (p1 p2 : ℕ → ℕ → List ℕ)
    (hf : f1.isSome = f2.isSome) (hj : j1.isSome = j2.isSome)
    (H : f1 = none ∨ lr ≤ 0 ∨ mbs?.getD N ≤ 0 ∨ N ≤ 0 ∨ mbs?.getD N > N ∨
      gtol ≤ 0 ∨ maxiter ≤ 0 ∨ j1 = none) :
    (∃ m, minimize_mini_batch_sgd f1 x1 j1 lr mbs? N gtol maxiter s1 p1 = .error m) ∧
    minimize_mini_batch_sgd f1 x1 j1 lr mbs? N gtol maxiter s1 p1 =
      minimize_mini_batch_sgd f2 x2 j2 lr mbs? N gtol maxiter s2 p2 := by
  cases f1 with
  | none =>
    cases f2 with
    | none => exact ⟨⟨_, rfl⟩, rfl⟩
    | some f2 => simp at hf
  | some f1 =>
    cases f2 with
    | none => simp at hf
    | some f2 =>
      have hH : lr ≤ 0 ∨ mbs?.getD N ≤ 0 ∨ N ≤ 0 ∨ mbs?.getD N > N ∨
          gtol ≤ 0 ∨ maxiter ≤ 0 ∨ j1 = none := by
        rcases H with h | h
        · exact Option.noConfusion h
        · exact h
      cases j1 with
      | none =>
        cases j2 with
        | none =>
          constructor
          · simp only [minimize_mini_batch_sgd]
            split_ifs <;> exact ⟨_, rfl⟩
          · rfl
        | some j2 => simp at hj
      | some j1 =>
        cases j2 with
        | none => simp at hj
        | some j2 =>
          constructor
          · simp only [minimize_mini_batch_sgd]
            split_ifs <;>
              first
                | exact ⟨_, rfl⟩
                | (rcases hH with h | h | h | h | h | h | h <;>
                    first
                      | exact Option.noConfusion h
                      | exact absurd h (by assumption))
          · simp only [minimize_mini_batch_sgd]
            split_ifs <;>
              first
                | rfl
                | (rcases hH with h | h | h | h | h | h | h <;>
                    first
                      | exact Option.noConfusion h
                      | exact absurd h (by assumption))

/-- C6: `validate_nests` returns without error iff the nests form an exact
partition of the observed alternatives (every observed alternative occurs
exactly once across the flattened nests and nothing outside the observed
alternatives occurs); moreover on the spec's examples: `[[1,2],[3]]` against
`{1,2,3}` passes, against `{1,2,3,4}` fails reporting 4 missing, and
`[[1,2],[2,3]]` fails reporting 2 as duplicated. -/
theorem validate_nests_partition_iff (nests : List (List ℤ)) (alternatives : List ℤ) :
    (validate_nests nests alternatives = .ok () ↔
      ((∀ a ∈ alternatives, nests.flatten.count a = 1) ∧
        ∀ a ∈ nests.flatten, a ∈ alternatives)) ∧
    validate_nests [[1, 2], [3]] [1, 2, 3] = .ok () ∧
    validate_nests [[1, 2], [3]] [1, 2, 3, 4] = .error (.missing [4]) ∧
    validate_nests [[1, 2], [2, 3]] [1, 2, 3] = .error (.duplicates [2]) := by
  refine ⟨?_, rfl, rfl, rfl⟩
  have hmiss : ∀ (h : (∀ a ∈ alternatives, nests.flatten.count a = 1) ∧
      ∀ a ∈ nests.flatten, a ∈ alternatives),
      alternatives.dedup.filter (fun a => ! nests.flatten.contains a) = [] := by
    rintro ⟨hcount, _⟩
    rw [List.filter_eq_nil_iff]
    intro a ha
    have hmem : a ∈ nests.flatten := by
      have h1 : nests.flatten.count a = 1 := hcount a (List.mem_dedup.mp ha)
      exact List.count_pos_iff.mp (by omega)
    simp [hmem]
  have hextra : ∀ (h : (∀ a ∈ alternatives, nests.flatten.count a = 1) ∧
      ∀ a ∈ nests.flatten, a ∈ alternatives),
      nests.flatten.dedup.filter (fun a => ! alternatives.contains a) = [] := by
    rintro ⟨_, hsub⟩
    rw [List.filter_eq_nil_iff]
    intro a ha
    simp [hsub a (List.mem_dedup.mp ha)]
  have hdup : ∀ (h : (∀ a ∈ alternatives, nests.flatten.count a = 1) ∧
      ∀ a ∈ nests.flatten, a ∈ alternatives),
      nests.flatten.dedup.filter (fun a => 1 < nests.flatten.count a) = [] := by
    rintro ⟨hcount, hsub⟩
    rw [List.filter_eq_nil_iff]
    intro a ha
    have hmem : a ∈ nests.flatten := List.mem_dedup.mp ha
    have h1 : nests.flatten.count a = 1 := hcount a (hsub a hmem)
    simp [h1]
  simp only [validate_nests]
  split_ifs with h1 h2 h3
  · constructor
    · intro h; exact h.elim
    · intro h; exact absurd (hmiss h) h1
  · constructor
    · intro h; exact h.elim
    · intro h; exact absurd (hextra h) h2
  · constructor
    · intro h; exact h.elim
    · intro h; exact absurd (hdup h) h3
  · rw [not_not] at h1 h2 h3
    constructor
    · intro _
      rw [List.filter_eq_nil_iff] at h1 h2 h3
      have hsub : ∀ a ∈ nests.flatten, a ∈ alternatives := by
        intro a ha
        have := h2 a (List.mem_dedup.mpr ha)
        simpa using this
      refine ⟨?_, hsub⟩
      intro a ha
      have hmem : a ∈ nests.flatten := by
        have := h1 a (List.mem_dedup.mpr ha)
        simpa using this
      have hle : nests.flatten.count a ≤ 1 := by
        have := h3 a (List.mem_dedup.mpr hmem)
        simpa using this
      have hpos : 0 < nests.flatten.count a := List.count_pos_iff.mpr hmem
      omega
    · intro _; rfl

/-- C4 counterexample: malformed nests do not raise; the constructor
completes normally, merely ignoring the nests, and the model is left flat
(`nested = False`, `nests = None`) — for a non-list `nests` value, an empty
nests list, a nest that is not a list, an empty nest, and a nest with a
non-integer entry. -/
theorem kernelModel_init_malformed_nests_no_error :
    kernelModel_init_nests (some .nonList) = (none, false) ∧
    kernelModel_init_nests (some (.list [])) = (none, false) ∧
    kernelModel_init_nests (some (.list [.nonList, .list [.int 1]])) = (none, false) ∧
    kernelModel_init_nests (some (.list [.list [], .list [.int 1]])) = (none, false) ∧
    kernelModel_init_nests (some (.list [.list [.nonInt], .list [.int 1]])) =
      (none, false) := by
  refine ⟨rfl, rfl, rfl, rfl, rfl⟩

/-- C4 (amended): the constructor never raises on malformed nests; it
accepts the nests (storing them and setting `nested`) exactly when the value
is a list of at least two nests, each of which is a nonempty list of
integers, and in every other case it silently leaves the model flat
(`nests = None`, `nested = False`). -/
theorem kernelModel_init_nests_spec (v : Option PyNestsVal) :
    ((kernelModel_init_nests v).2 = true ↔
      ∃ ns, v = some (.list ns) ∧ 2 ≤ ns.length ∧ ∀ nest ∈ ns, goodNest nest = true) ∧
    ((kernelModel_init_nests v).2 = false → kernelModel_init_nests v = (none, false)) ∧
    (∀ ns, v = some (.list ns) → (kernelModel_init_nests v).2 = true →
      kernelModel_init_nests v = (some ns, true)) := by
  cases v with
  | none =>
    refine ⟨?_, fun _ => rfl, ?_⟩
    · simp [kernelModel_init_nests]
    · intro ns h; exact Option.noConfusion h
  | some w =>
    cases w with
    | nonList =>
      refine ⟨?_, fun _ => rfl, ?_⟩
      · simp [kernelModel_init_nests]
      · intro ns h
        exact PyNestsVal.noConfusion (Option.some.inj h)
    | list ns =>
      have hdone : (! initNestsDone ns) = true ↔ ∀ nest ∈ ns, goodNest nest = true := by
        rw [initNestsDone_eq_any]
        simp
      by_cases h0 : ns.length = 0
      · have hred : kernelModel_init_nests (some (.list ns)) = (none, false) := by
          simp [kernelModel_init_nests, h0]
        rw [hred]
        refine ⟨?_, fun _ => rfl, ?_⟩
        · simp
          intro h
          omega
        · intro ns2 _ h
          exact Bool.noConfusion h
      · by_cases h1 : ns.length = 1
        · have hred : kernelModel_init_nests (some (.list ns)) = (none, false) := by
            simp [kernelModel_init_nests, h0, h1]
          rw [hred]
          refine ⟨?_, fun _ => rfl, ?_⟩
          · simp
            intro h
            omega
          · intro ns2 _ h
            exact Bool.noConfusion h
        · by_cases hd : initNestsDone ns
          · have hred : kernelModel_init_nests (some (.list ns)) = (none, false) := by
              simp [kernelModel_init_nests, h0, h1, hd]
            rw [hred]
            refine ⟨?_, fun _ => rfl, ?_⟩
            · simp
              intro _
              have h2 : ns.any (fun nest => ! goodNest nest) = true := by
                rw [← initNestsDone_eq_any]
                exact hd
              simpa using h2
            · intro ns2 _ h
              exact Bool.noConfusion h
          · have hd' : (! initNestsDone ns) = true := by
              simp [Bool.not_eq_true] at hd ⊢
              exact hd
            have hred : kernelModel_init_nests (some (.list ns)) = (some ns, true) := by
              simp [kernelModel_init_nests, h0, h1]
              simp [Bool.not_eq_true] at hd
              simp [hd]
            rw [hred]
            refine ⟨?_, ?_, ?_⟩
            · constructor
              · intro _
                exact ⟨ns, rfl, by omega, hdone.mp hd'⟩
              · intro _; rfl
            · intro h; exact Bool.noConfusion h
            · intro ns2 hns2 _
              have : ns2 = ns := by
                have := Option.some.inj hns2
                exact (PyNestsVal.list.inj this).symm
              rw [this]

/-- C10: `get_kernel` on any dataset name other than "train" or "test" —
including the documented "both" — raises a `ValueError` whose message still
lists 'both' as accepted, while `get_kernel("train")` and
`get_kernel("test")` return the stored matrices (possibly `None`) and never
modify the model state. -/
theorem get_kernel_spec {KM : Type} (st : KernelModelState KM) (dataset : String)
    (h1 : dataset ≠ "train") (h2 : dataset ≠ "test") :
    get_kernel st dataset = (.error gklrDatasetErrMsg, st) ∧
    gklrDatasetErrMsg =
      "Dataset must be a value in: ['train', 'test', '" ++ "both" ++ "']" ∧
    get_kernel st "train" = (.ok st.K, st) ∧
    get_kernel st "test" = (.ok st.K_test, st) := by
  refine ⟨?_, rfl, rfl, rfl⟩
  simp [get_kernel, h1, h2]

/-- C10 witness at the documented value "both" on a concrete model state. -/
theorem get_kernel_spec_witness :
    ("both" : String) ≠ "train" ∧ ("both" : String) ≠ "test" ∧
    (get_kernel ({ K := none, K_test := none, nests := none, nested := false } :
        KernelModelState Unit) "both" =
      (.error gklrDatasetErrMsg,
        ({ K := none, K_test := none, nests := none, nested := false } :
          KernelModelState Unit)) ∧
    gklrDatasetErrMsg =
      "Dataset must be a value in: ['train', 'test', '" ++ "both" ++ "']" ∧
    get_kernel ({ K := none, K_test := none, nests := none, nested := false } :
        KernelModelState Unit) "train" =
      (.ok none,
        ({ K := none, K_test := none, nests := none, nested := false } :
          KernelModelState Unit)) ∧
    get_kernel ({ K := none, K_test := none, nests := none, nested := false } :
        KernelModelState Unit) "test" =
      (.ok none,
        ({ K := none, K_test := none, nests := none, nested := false } :
          KernelModelState Unit))) :=
  ⟨by decide, by decide,
    get_kernel_spec ({ K := none, K_test := none, nests := none, nested := false } :
      KernelModelState Unit) "both" (by decide) (by decide)⟩

/-- C5: after a nested fit, `fit` reads the nest-scale vector under the
results key "lambd" while `predict_proba` reads it under "lambda"; "lambda"
is a key `fit` neither reads nor writes, so on any results record whose keys
avoid "lambda" (as produced by `fit`) the nested `predict_proba` lookup
fails (a Python `KeyError`) while `fit`'s own post-estimation lookup
succeeds. -/
theorem fit_predict_nested_key_mismatch :
    ("lambd" ∈ fitNestedResultReads) ∧
    ("lambda" ∈ predictProbaNestedReads) ∧
    ("lambda" ∉ fitNestedResultReads) ∧
    ("lambda" ∉ fitResultWrites) ∧
    (∀ (V P : Type) (cp : V → V → P) (results : List (String × V)),
      (∀ p ∈ results, p.1 ≠ "lambda") → predictProbaNested cp results = none) ∧
    (∀ (V L : Type) (ll : V → V → L) (results : List (String × V)) (a l : V),
      resultsGet results "alpha" = some a → resultsGet results "lambd" = some l →
      fitNestedFinalLogLikelihood ll results = some (ll a l)) := by
  refine ⟨by decide, by decide, by decide, by decide, ?_, ?_⟩
  · intro V P cp results h
    have hnone : resultsGet results "lambda" = none := by
      rw [resultsGet, Option.map_eq_none']
      rw [List.find?_eq_none]
      intro p hp
      simpa using h p hp
    rw [predictProbaNested, hnone]
    cases resultsGet results "alpha" <;> rfl
  · intro V L ll results a l ha hl
    rw [fitNestedFinalLogLikelihood, ha, hl]

/-- C8: `Optimizer.minimize` with any method name other than "SGD" raises a
`ValueError` whose message lists the supported method set (here
spec-modelled as `["SGD"]`), without performing any optimisation step (the
result is the same error whatever the objective, gradient, starting point,
options and permutation source are); a `None` method behaves exactly as
"SGD". -/
theorem minimize_unsupported_method (method : String) (hm : method ≠ "SGD")
    (fun? : Option (Vec → Option (List ℕ) → ℚ)) (x0 : Vec)
    (jac? : Option (Vec → List ℕ → Vec)) (tol? : Option ℚ)
    (options? : Option SGDOptions) (perm : ℕ → ℕ → List ℕ) :
    Optimizer.minimize fun? x0 (some method) jac? tol? options? perm =
      .error ("'method' = " ++ method
        ++ " is not a valid optimization method.\nValid methods are: "
        ++ pyStrList CUSTOM_OPTIMIZATION_METHODS ++ ".") ∧
    CUSTOM_OPTIMIZATION_METHODS = ["SGD"] ∧
    pyStrList CUSTOM_OPTIMIZATION_METHODS = "['SGD']" ∧
    (∀ (fun2? : Option (Vec → Option (List ℕ) → ℚ)) (x2 : Vec)
      (jac2? : Option (Vec → List ℕ → Vec)) (tol2? : Option ℚ)
      (options2? : Option SGDOptions) (perm2 : ℕ → ℕ → List ℕ),
      Optimizer.minimize fun2? x2 none jac2? tol2? options2? perm2 =
        Optimizer.minimize fun2? x2 (some "SGD") jac2? tol2? options2? perm2) := by
  refine ⟨?_, rfl, rfl, fun _ _ _ _ _ _ => rfl⟩
  cases tol? with
  | none => simp [Optimizer.minimize, hm]
  | some t => simp [Optimizer.minimize, hm]

/-- C8 witness: requesting the method "L-BFGS-B" on concrete inputs yields
the configuration error listing the supported set. -/
theorem minimize_unsupported_method_witness :
    ("L-BFGS-B" : String) ≠ "SGD" ∧
    (Optimizer.minimize none [] (some "L-BFGS-B") none none none (fun _ n => List.range n) =
      .error ("'method' = " ++ "L-BFGS-B"
        ++ " is not a valid optimization method.\nValid methods are: "
        ++ pyStrList CUSTOM_OPTIMIZATION_METHODS ++ ".") ∧
    CUSTOM_OPTIMIZATION_METHODS = ["SGD"] ∧
    pyStrList CUSTOM_OPTIMIZATION_METHODS = "['SGD']" ∧
    (∀ (fun2? : Option (Vec → Option (List ℕ) → ℚ)) (x2 : Vec)
      (jac2? : Option (Vec → List ℕ → Vec)) (tol2? : Option ℚ)
      (options2? : Option SGDOptions) (perm2 : ℕ → ℕ → List ℕ),
      Optimizer.minimize fun2? x2 none jac2? tol2? options2? perm2 =
        Optimizer.minimize fun2? x2 (some "SGD") jac2? tol2? options2? perm2)) :=
  ⟨by decide,
    minimize_unsupported_method "L-BFGS-B" (by decide) none [] none none none
      (fun _ n => List.range n)⟩

/-- C3: starting from any cache-consistent `MemoizeJac` state (the freshly
initialised state in particular), `__call__(x, minibatch)` returns exactly
the value component of `fun(x, minibatch)` and `derivative(x, minibatch)`
exactly its gradient component; an invocation calls the wrapped function at
most once, and calls it zero times exactly when both the point and the
active mini-batch equal the previously cached call; consequently requesting
the value and then the gradient at the same `(x, minibatch)` invokes the
wrapped function exactly once in total from a fresh state. -/
theorem memoizeJac_cache_spec {X B V G : Type} [DecidableEq X] [DecidableEq B]
    (f : X → Option B → V × G) (s : MemoizeJacState X B V G) (x : X) (mb : Option B)
    (hInv : MemoizeJacInv f s) :
    (MemoizeJac.call f s x mb).1 = some (f x mb).1 ∧
    (MemoizeJac.derivative f s x mb).1 = some (f x mb).2 ∧
    MemoizeJacInv f (MemoizeJac.call f s x mb).2.1 ∧
    (MemoizeJac.call f s x mb).2.2 ≤ 1 ∧
    ((MemoizeJac.call f s x mb).2.2 = 0 ↔
      s.x = some x ∧ s.minibatch = mb ∧ s.value.isSome = true) ∧
    MemoizeJacInv f (MemoizeJac.init X B V G) ∧
    (MemoizeJac.init X B V G).x = none ∧
    (MemoizeJac.derivative f (MemoizeJac.call f s x mb).2.1 x mb).2.2 = 0 ∧
    (MemoizeJac.derivative f (MemoizeJac.call f s x mb).2.1 x mb).1 = some (f x mb).2 ∧
    (MemoizeJac.derivative f (MemoizeJac.call f s x mb).2.1 x mb).2.1 =
      (MemoizeJac.call f s x mb).2.1 ∧
    (s = MemoizeJac.init X B V G → (MemoizeJac.call f s x mb).2.2 = 1) := by
  obtain ⟨hx, hmb, hval, hjac, hinv2, hle, hzero, hsame⟩ :=
    computeIfNeeded_spec f s x mb hInv
  have hcall : MemoizeJac.call f s x mb =
      ((MemoizeJac.computeIfNeeded f s x mb).1.value,
        (MemoizeJac.computeIfNeeded f s x mb).1, (MemoizeJac.computeIfNeeded f s x mb).2) := rfl
  have hder : MemoizeJac.derivative f s x mb =
      ((MemoizeJac.computeIfNeeded f s x mb).1.jacv,
        (MemoizeJac.computeIfNeeded f s x mb).1, (MemoizeJac.computeIfNeeded f s x mb).2) := rfl
  obtain ⟨hx2, hmb2, hval2, hjac2, hinv3, hle2, hzero2, hsame2⟩ :=
    computeIfNeeded_spec f (MemoizeJac.computeIfNeeded f s x mb).1 x mb hinv2
  have hc2 : (MemoizeJac.computeIfNeeded f (MemoizeJac.computeIfNeeded f s x mb).1 x mb).2 = 0 :=
    hzero2.mpr ⟨hx, hmb, by rw [hval]; rfl⟩
  refine ⟨by rw [hcall]; exact hval, by rw [hder]; exact hjac, hinv2, hle, hzero,
    Or.inl ⟨rfl, rfl, rfl⟩, rfl, hc2, ?_, ?_, ?_⟩
  · show (MemoizeJac.computeIfNeeded f (MemoizeJac.computeIfNeeded f s x mb).1 x mb).1.jacv =
      some (f x mb).2
    rw [hsame2 hc2]
    exact hjac
  · show (MemoizeJac.computeIfNeeded f (MemoizeJac.computeIfNeeded f s x mb).1 x mb).1 =
      (MemoizeJac.computeIfNeeded f s x mb).1
    exact hsame2 hc2
  · intro hs
    have h1 : (MemoizeJac.computeIfNeeded f s x mb).2 ≠ 0 := by
      intro h0
      rw [hzero] at h0
      rcases h0 with ⟨hx0, -, -⟩
      rw [hs] at hx0
      exact Option.noConfusion hx0
    show (MemoizeJac.computeIfNeeded f s x mb).2 = 1
    omega

theorem epochStep_fst (jac : Vec → List ℕ → Vec) (lr : ℚ) :
    ∀ (mbs : List (List ℕ)) (x g d : Vec),
      (epochStep jac lr mbs x g d).1 =
        mbs.foldl (fun y mb => vadd y (smulNeg lr (jac y mb))) x := by
  intro mbs
  induction mbs with
  | nil => intro x g d; rfl
  | cons mb mbs ih =>
    intro x g d
    show (epochStep jac lr mbs (vadd x (smulNeg lr (jac x mb))) (jac x mb)
      (smulNeg lr (jac x mb))).1 = _
    rw [ih]
    rfl

/-- C2: in a run with base seed `s`, the epoch with 1-based index `k`
(0-based `j`, `k = j + 1`) draws the partition seeded `s + k` — the seed
increments by one every epoch — namely the contiguous chunking of the fresh
permutation `perm (s + k) N` into blocks of `b`; whenever that permutation
is a permutation of `[0, N)` and `0 < b ≤ N`, the chunks all have size `b`
except a possibly shorter final one, they are nonempty, their concatenation
is exactly the permutation, and every index below `N` occurs in exactly one
chunk; within an epoch the parameter vector is updated per chunk in order by
`x ← x − learning_rate · jac(x, chunk)`. -/
theorem sgd_epoch_partition_spec (c : SGDCtx) (s : ℕ) (hb : 0 < c.b) (_hbN : c.b ≤ c.N) :
    (∀ (fuel i : ℕ) (x g : Vec),
      sgdLoop c fuel i s x g =
        match firstHit (fun j => withinTol c.gtol (sgdDiff c s (x, g) j)) fuel with
        | some j =>
          ((sgdIter c s (x, g) (j + 1)).1, (sgdIter c s (x, g) (j + 1)).2, some (i + j))
        | none => ((sgdIter c s (x, g) fuel).1, (sgdIter c s (x, g) fuel).2, none)) ∧
    (∀ (st : Vec × Vec) (j : ℕ),
      epochOut c s st j =
        epochStep c.jac c.lr (random_mini_batch c.perm c.N c.b (s + (j + 1))) st.1 st.2
          (zeroVec c.n)) ∧
    (∀ seed, random_mini_batch c.perm c.N c.b seed = chunkList c.b (c.perm seed c.N)) ∧
    (∀ l : List ℕ, l.length = c.N → l.Nodup → (∀ m ∈ l, m < c.N) →
      (chunkList c.b l).flatten = l ∧
      (∀ ch ∈ (chunkList c.b l).dropLast, ch.length = c.b) ∧
      (∀ ch ∈ chunkList c.b l, 0 < ch.length ∧ ch.length ≤ c.b) ∧
      (∀ m, m < c.N → ((chunkList c.b l).map (fun ch => ch.count m)).sum = 1)) ∧
    (∀ (mbs : List (List ℕ)) (x g d : Vec),
      (epochStep c.jac c.lr mbs x g d).1 =
        mbs.foldl (fun y mb => vadd y (smulNeg c.lr (c.jac y mb))) x) := by
  refine ⟨fun fuel i x g => sgdLoop_char c fuel i s x g, fun st j => rfl, fun seed => rfl,
    ?_, epochStep_fst c.jac c.lr⟩
  intro l hlen hnd hmem
  have hb0 : c.b ≠ 0 := by omega
  have hflat : (chunkList c.b l).flatten = l := chunkList_flatten c.b l hb0
  refine ⟨hflat, chunkList_dropLast_length c.b l, chunkList_mem_length c.b l, ?_⟩
  intro m hm
  have hml : m ∈ l := by
    have hsub : l.toFinset ⊆ Finset.range c.N := by
      intro a ha
      rw [List.mem_toFinset] at ha
      exact Finset.mem_range.mpr (hmem a ha)
    have hcard : l.toFinset.card = c.N := by
      rw [List.toFinset_card_of_nodup hnd, hlen]
    have heq : l.toFinset = Finset.range c.N :=
      Finset.eq_of_subset_of_card_le hsub (by rw [hcard]; simp)
    rw [← List.mem_toFinset, heq]
    exact Finset.mem_range.mpr hm
  have hcnt : l.count m = 1 := List.count_eq_one_of_mem hnd hml
  have hcf := List.count_flatten m (chunkList c.b l)
  rw [hflat, hcnt] at hcf
  show ((chunkList c.b l).map (List.count m)).sum = 1
  exact hcf.symm

/-- C2 witness: a concrete run context with `N = 3`, `b = 2`, base seed 0 and
the identity permutation source; the epoch-1 partition of the drawn
permutation `[2, 0, 1]` covers it exactly. -/
theorem sgd_epoch_partition_spec_witness :
    (chunkList 2 [2, 0, 1]).flatten = [2, 0, 1] :=
  ((sgd_epoch_partition_spec
      { jac := fun x _ => x, lr := 1, gtol := 1, N := 3, b := 2,
        perm := fun _ n => (List.range n).reverse, n := 1 } 0
      (by decide) (by decide)).2.2.2.1 [2, 0, 1] (by decide) (by decide)
      (by decide)).1

/-- C9: the epoch loop consumes `(n_samples, mini_batch_size, seed, perm)`
only through the per-epoch partition sequence
`j ↦ random_mini_batch perm N b (seed + j + 1)`; that sequence is a
deterministic function of `(n_samples, mini_batch_size, seed)` alone given
the permutation source — two runs agreeing on those produce identical
mini-batch partitions in every epoch even if objective, gradient, starting
point, learning rate and tolerance differ — and two runs of the SGD
minimiser with identical inputs produce identical results (in particular
identical final `x`). -/
theorem sgd_deterministic_partitions :
    (∀ (c : SGDCtx) (fuel i seed : ℕ) (x g : Vec),
      sgdLoop c fuel i seed x g =
        sgdLoopP c.jac c.lr c.gtol c.n
          (fun j => random_mini_batch c.perm c.N c.b (seed + j + 1)) fuel i x g) ∧
    (∀ (c1 c2 : SGDCtx) (seed : ℕ), c1.N = c2.N → c1.b = c2.b → c1.perm = c2.perm →
      (fun j => random_mini_batch c1.perm c1.N c1.b (seed + j + 1)) =
        (fun j => random_mini_batch c2.perm c2.N c2.b (seed + j + 1))) ∧
    (∀ (f1 f2 : Option (Vec → Option (List ℕ) → ℚ)) (j1 j2 : Option (Vec → List ℕ → Vec))
      (x1 x2 : Vec) (lr1 lr2 : ℚ) (m1 m2 : Option ℤ) (N1 N2 : ℤ) (g1 g2 : ℚ)
      (it1 it2 : ℤ) (s1 s2 : ℕ) (p1 p2 : ℕ → ℕ → List ℕ),
      f1 = f2 → j1 = j2 → x1 = x2 → lr1 = lr2 → m1 = m2 → N1 = N2 → g1 = g2 →
      it1 = it2 → s1 = s2 → p1 = p2 →
      minimize_mini_batch_sgd f1 x1 j1 lr1 m1 N1 g1 it1 s1 p1 =
        minimize_mini_batch_sgd f2 x2 j2 lr2 m2 N2 g2 it2 s2 p2) := by
  refine ⟨fun c fuel i seed x g => sgdLoop_factors c fuel i seed x g, ?_, ?_⟩
  · intro c1 c2 seed hN hb hperm
    funext j
    rw [hN, hb, hperm]
  · intro f1 f2 j1 j2 x1 x2 lr1 lr2 m1 m2 N1 N2 g1 g2 it1 it2 s1 s2 p1 p2
    intro h1 h2 h3 h4 h5 h6 h7 h8 h9 h10
    rw [h1, h2, h3, h4, h5, h6, h7, h8, h9, h10]

theorem minimize_sgd_valid_eq (f : Vec → Option (List ℕ) → ℚ) (jac : Vec → List ℕ → Vec)
    (x0 : Vec) (lr : ℚ) (mbs? : Option ℤ) (N : ℤ) (gtol : ℚ) (maxiter : ℤ) (seed : ℕ)
    (perm : ℕ → ℕ → List ℕ)
    (hlr : 0 < lr) (hb : 0 < mbs?.getD N) (hN : 0 < N) (hbN : mbs?.getD N ≤ N)
    (hg : 0 < gtol) (hm : 0 < maxiter) :
    minimize_mini_batch_sgd (some f) x0 (some jac) lr mbs? N gtol maxiter seed perm =
      (let c : SGDCtx :=
        { jac := jac, lr := lr, gtol := gtol, N := N.toNat, b := (mbs?.getD N).toNat,
          perm := perm, n := x0.length }
       let out := sgdLoop c maxiter.toNat 0 seed x0 (zeroVec x0.length)
       let iFin := match out.2.2 with | some i0 => i0 + 1 | none => maxiter.toNat
       .ok { x := out.1, fval := f out.1 none, jacv := out.2.1, nit := iFin, nfev := iFin,
             success := decide (iFin < maxiter.toNat),
             message :=
               if iFin ≥ maxiter.toNat then "STOP: TOTAL NO. of ITERATIONS REACHED LIMIT"
               else "Optimization terminated successfully. Gradient tolerance reached." }) := by
  simp only [minimize_mini_batch_sgd]
  rw [if_neg (not_le.mpr hlr), if_neg (not_le.mpr hb), if_neg (not_le.mpr hN),
    if_neg (not_lt.mpr hbN), if_neg (not_le.mpr hg), if_neg (not_le.mpr hm)]

/-- C1 counterexample: a concrete run (zero gradient, `maxiter = 1`) in
which the tolerance criterion is met after the final epoch — the loop does
break there (`some 0`) and the last step `[0]` is within tolerance — yet the
returned result has `success = False` and the "limit reached" message,
because the post-loop `i += 1; if i >= num_epochs` guard overwrites the
break outcome. The claim's "success is True whenever the tolerance
criterion was met, including when it is first met on the final epoch" is
therefore false on the code. -/
theorem sgd_success_flag_final_epoch_counterexample :
    (sgdLoop
        { jac := fun _ _ => [0], lr := 1, gtol := 1, N := 1, b := 1,
          perm := fun _ n => List.range n, n := 1 }
        1 0 0 [0] [0]).2.2 = some 0 ∧
    withinTol 1
      (sgdDiff
        { jac := fun _ _ => [0], lr := 1, gtol := 1, N := 1, b := 1,
          perm := fun _ n => List.range n, n := 1 }
        0 ([0], [0]) 0) = true ∧
    (∃ r, minimize_mini_batch_sgd (some (fun _ _ => (0 : ℚ))) [0] (some (fun _ _ => [0]))
        1 (some 1) 1 1 1 0 (fun _ n => List.range n) = .ok r ∧
      r.success = false ∧
      r.message = "STOP: TOTAL NO. of ITERATIONS REACHED LIMIT" ∧ r.nit = 1) := by
  have hloop : sgdLoop
      { jac := fun _ _ => [0], lr := 1, gtol := 1, N := 1, b := 1,
        perm := fun _ n => List.range n, n := 1 } 1 0 0 [0] [0] = ([0], [0], some 0) := by
    simp [sgdLoop, random_mini_batch, chunkList, chunkListF, withinTol, epochStep, vadd,
      smulNeg, zeroVec]
  refine ⟨by rw [hloop], ?_, ?_⟩
  · simp [sgdDiff, epochOut, sgdIter, random_mini_batch, chunkList, chunkListF, epochStep,
      withinTol, vadd, smulNeg, zeroVec]
  · have hval := minimize_sgd_valid_eq (fun _ _ => (0 : ℚ)) (fun _ _ => [0]) [0] 1 (some 1)
      1 1 1 0 (fun _ n => List.range n) (by norm_num) (by norm_num) (by norm_num)
      (by norm_num) (by norm_num) (by norm_num)
    rw [hval]
    simp only [Option.getD_some, Int.toNat_one, List.length_singleton, zeroVec,
      List.replicate_one]
    simp only [hloop]
    exact ⟨_, rfl, rfl, rfl, rfl⟩

/-- C1 (amended): for valid inputs, with `P j` the test "after epoch `j`
(0-based) the last mini-batch's update step has every component of absolute
value at most `gtol`", the optimiser stops at the first epoch satisfying
`P`; it reports `success = True` together with the success message exactly
when that epoch is strictly before the final (`maxiter`-th) one. When the
criterion is first met on the final epoch the loop still stops there, but
the result reports `success = False` with the "limit reached" message, and
when no epoch meets the criterion the run exhausts `maxiter` epochs and
likewise reports `success = False` with the "limit reached" message. -/
theorem sgd_convergence_flag_spec (f : Vec → Option (List ℕ) → ℚ)
    (jac : Vec → List ℕ → Vec) (x0 : Vec) (lr : ℚ) (mbs? : Option ℤ) (N : ℤ)
    (gtol : ℚ) (maxiter : ℤ) (seed : ℕ) (perm : ℕ → ℕ → List ℕ)
    (hlr : 0 < lr) (hb : 0 < mbs?.getD N) (hN : 0 < N) (hbN : mbs?.getD N ≤ N)
    (hg : 0 < gtol) (hm : 0 < maxiter) (c : SGDCtx)
    (hc : c = { jac := jac, lr := lr, gtol := gtol, N := N.toNat,
                b := (mbs?.getD N).toNat, perm := perm, n := x0.length })
    (P : ℕ → Bool)
    (hP : P = fun j => withinTol c.gtol (sgdDiff c seed (x0, zeroVec x0.length) j)) :
    ∃ r, minimize_mini_batch_sgd (some f) x0 (some jac) lr mbs? N gtol maxiter seed perm
        = .ok r ∧
      (∀ j, firstHit P maxiter.toNat = some j →
        r.nit = j + 1 ∧ (r.success = true ↔ j + 1 < maxiter.toNat) ∧
        (j + 1 < maxiter.toNat →
          r.message = "Optimization terminated successfully. Gradient tolerance reached.") ∧
        (maxiter.toNat ≤ j + 1 →
          r.message = "STOP: TOTAL NO. of ITERATIONS REACHED LIMIT")) ∧
      (firstHit P maxiter.toNat = none →
        r.nit = maxiter.toNat ∧ r.success = false ∧
        r.message = "STOP: TOTAL NO. of ITERATIONS REACHED LIMIT") := by
  subst hc
  rw [minimize_sgd_valid_eq f jac x0 lr mbs? N gtol maxiter seed perm hlr hb hN hbN hg hm]
  simp only [sgdLoop_char]
  rw [← hP]
  cases hfh : firstHit P maxiter.toNat with
  | some j =>
    simp only [hfh, Nat.zero_add]
    refine ⟨_, rfl, ?_, ?_⟩
    · intro j2 hj2
      have hj : j2 = j := (Option.some.inj hj2).symm
      rw [hj]
      refine ⟨rfl, by simp, ?_, ?_⟩
      · intro hlt
        show (if maxiter.toNat ≤ j + 1 then "STOP: TOTAL NO. of ITERATIONS REACHED LIMIT"
          else "Optimization terminated successfully. Gradient tolerance reached.") = _
        rw [if_neg (by omega)]
      · intro hge
        show (if maxiter.toNat ≤ j + 1 then "STOP: TOTAL NO. of ITERATIONS REACHED LIMIT"
          else "Optimization terminated successfully. Gradient tolerance reached.") = _
        rw [if_pos hge]
    · intro hnone
      exact Option.noConfusion hnone
  | none =>
    simp only [hfh]
    refine ⟨_, rfl, ?_, ?_⟩
    · intro j2 hj2
      exact Option.noConfusion hj2
    · intro _
      refine ⟨rfl, by simp, ?_⟩
      show (if maxiter.toNat ≤ maxiter.toNat then "STOP: TOTAL NO. of ITERATIONS REACHED LIMIT"
        else "Optimization terminated successfully. Gradient tolerance reached.") = _
      rw [if_pos le_rfl]

/-- C1 witness: the amended convergence-flag characterisation applied to a
concrete valid run (`maxiter = 2`, zero gradient). -/
theorem sgd_convergence_flag_spec_witness :
    ∃ r, minimize_mini_batch_sgd (some (fun _ _ => (0 : ℚ))) [0] (some (fun _ _ => [0]))
      1 (some 1) 1 1 2 0 (fun _ n => List.range n) = .ok r := by
  obtain ⟨r, hr, -, -⟩ := sgd_convergence_flag_spec (fun _ _ => (0 : ℚ)) (fun _ _ => [0])
    [0] 1 (some 1) 1 1 2 0 (fun _ n => List.range n) (by norm_num) (by norm_num)
    (by norm_num) (by norm_num) (by norm_num) (by norm_num) _ rfl _ rfl
  exact ⟨r, hr⟩

/-- C3 witness: the cache contract applied to a concrete wrapped function at
a fresh state. -/
theorem memoizeJac_cache_spec_witness :
    (MemoizeJac.call (fun (x : ℕ) (_ : Option ℕ) => (x, x + 1))
      (MemoizeJac.init ℕ ℕ ℕ ℕ) 5 none).1 = some 5 :=
  (memoizeJac_cache_spec (fun (x : ℕ) (_ : Option ℕ) => (x, x + 1))
    (MemoizeJac.init ℕ ℕ ℕ ℕ) 5 none (Or.inl ⟨rfl, rfl, rfl⟩)).1

/-- C7 witness: an oversized mini-batch size (5 > 3 samples) is rejected
with an error on concrete inputs. -/
theorem sgd_invalid_inputs_rejected_witness :
    ∃ m, minimize_mini_batch_sgd (some (fun _ _ => (0 : ℚ))) [1] (some (fun _ _ => [1]))
      1 (some 5) 3 1 10 0 (fun _ n => List.range n) = .error m :=
  (sgd_invalid_inputs_rejected 1 1 (some 5) 3 10
    (some (fun _ _ => (0 : ℚ))) (some (fun _ _ => (0 : ℚ)))
    (some (fun _ _ => [1])) (some (fun _ _ => [1])) [1] [1] 0 0
    (fun _ n => List.range n) (fun _ n => List.range n) rfl rfl
    (Or.inr (Or.inr (Or.inr (Or.inr (Or.inl (by decide))))))).1
